import Mathlib

/-!
Shallow embedding of `src/advanced-vector/vector.h`: a growable contiguous
container `Vector<T>` layered over a raw buffer `RawMemory<T>`.

Two abstraction levels are used, both translated from the source:

* A value-level model `Vec` (`elems` = the live elements `[0, size_)`,
  `cap` = `data_.Capacity()`), for claims about sizes, capacities and element
  values on the non-throwing execution paths.  On these paths every transfer
  (move-construction, copy-construction, move-assignment) preserves the value
  held by the destination slot, so the net effect of each member function on
  the live-element sequence is computed directly.

* A slot-level model `Vector` over `RawMemory` (`buffer` = one `Option α` per
  allocated slot, `some` = a constructed object, `none` = raw memory), for
  claims about construction/destruction of individual objects, assertion
  checking, and the states reachable when an element operation throws.
  Throwing element operations are instrumented by an explicit failure index;
  a function returns `Except e a` where the error carries the observable
  state at the moment the C++ exception propagates out of the member function.
-/

namespace AdvancedVector

/-- Capacity chosen by the growth paths (`vector.h` lines 186 and 248):
`size_ == 0 ? 1 : size_ * 2`.  `size_` is a `size_t`; the multiplication
could wrap only for `size_ >= 2^63`, which is unreachable because the
corresponding allocation (`operator new(n * sizeof(T))`, `sizeof(T) >= 1`)
fails before any such vector can be built, so the model uses plain `Nat`. -/
def growthCapacity (n : Nat) : Nat := if n = 0 then 1 else n * 2

/-- Value-level model of `Vector<T>` (`vector.h` lines 87-342): `elems` is the
sequence of live element values at offsets `[0, size_)`, `cap` is
`data_.Capacity()`.  `size_` is `elems.length`. -/
structure Vec (α : Type) where
  elems : List α
  cap : Nat
  deriving Repr, DecidableEq

namespace Vec

/-- Size() (line 294): the number of live elements. -/
def Size (v : Vec α) : Nat := v.elems.length

/-- The default constructor `Vector() = default` (line 93): empty, no buffer. -/
def empty : Vec α := ⟨[], 0⟩

/-- Sized constructor `Vector(size_t size)` (lines 95-100): allocates exactly
`size` capacity and value-constructs `size` elements; `d` is the value
produced by value-construction of the element type. -/
def ofSize (d : α) (n : Nat) : Vec α := ⟨List.replicate n d, n⟩

/-- Copy constructor (lines 102-108): allocates exactly `other.size_` capacity
and copy-constructs every element. -/
def copyCtorOf (other : Vec α) : Vec α := ⟨other.elems, other.Size⟩

/-- Move constructor (lines 110-113): steals the buffer and size, the source
becomes empty with no buffer.  Returns (constructed vector, moved-from source). -/
def moveCtorOf (other : Vec α) : Vec α × Vec α := (other, empty)

/-- Copy assignment `operator=(const Vector&)` (lines 115-140) for `this != &rhs`.
If `rhs.size_ > data_.Capacity()`: build `rhs_copy` (capacity exactly
`rhs.size_`) and swap it in.  Otherwise reuse the existing buffer: copy-assign
the overlapping prefix, then either destroy the surplus tail or copy-construct
the missing tail; in both branches the live values end up equal to `rhs`'s and
the capacity is kept. -/
def assign (a rhs : Vec α) : Vec α :=
  if rhs.Size > a.cap then
    ⟨rhs.elems, rhs.Size⟩
  else
    ⟨rhs.elems, a.cap⟩

/-- Move assignment (lines 142-148) for `this != &rhs`: steal buffer and size,
source left empty.  Returns (assigned-to vector, moved-from source). -/
def moveAssign (_a rhs : Vec α) : Vec α × Vec α := (⟨rhs.elems, rhs.cap⟩, empty)

/-- Swap (lines 150-153): exchanges buffers and sizes. -/
def SwapOp (a b : Vec α) : Vec α × Vec α := (b, a)

/-- Reserve (lines 155-169): no-op when `new_capacity <= data_.Capacity()`;
otherwise a new buffer of exactly `new_capacity` is allocated, the `size_`
live elements are transferred (move or copy, value preserved either way), the
originals are destroyed and the buffers swapped. -/
def Reserve (v : Vec α) (newCapacity : Nat) : Vec α :=
  if newCapacity ≤ v.cap then v
  else ⟨v.elems, newCapacity⟩

/-- Resize (lines 171-181): shrink destroys the tail `[new_size, size_)`
without deallocating; grow reserves then value-constructs the tail
`[size_, new_size)` (each new element has the value-constructed value `d`). -/
def Resize (v : Vec α) (d : α) (newSize : Nat) : Vec α :=
  if newSize < v.Size then
    ⟨v.elems.take newSize, v.cap⟩
  else if newSize > v.Size then
    ⟨(v.Reserve newSize).elems ++ List.replicate (newSize - v.Size) d,
      (v.Reserve newSize).cap⟩
  else v

/-- EmplaceBack (lines 183-204) on the non-throwing path.  At full capacity a
new buffer of `growthCapacity size_` is allocated, the new element is
constructed at offset `size_`, the old elements are transferred in front of
it, destroyed, and the buffers swapped; otherwise the new element is
constructed at `end()`.  Either way `++size_`. -/
def EmplaceBack (v : Vec α) (x : α) : Vec α :=
  if v.Size = v.cap then
    ⟨v.elems ++ [x], growthCapacity v.Size⟩
  else
    ⟨v.elems ++ [x], v.cap⟩

/-- PushBack (lines 206-212): forwards to EmplaceBack. -/
def PushBack (v : Vec α) (x : α) : Vec α := v.EmplaceBack x

/-- PopBack (lines 214-217) under its precondition `size_ != 0`:
`--size_; destroy_at(end())` destroys the last live element; no deallocation. -/
def PopBack (v : Vec α) : Vec α := ⟨v.elems.dropLast, v.cap⟩

/-- Erase (lines 219-228) under its precondition `begin() <= pos < end()`,
with `posOff = pos - cbegin()`.  `std::move(pos + 1, end(), pos)` shifts the
tail one slot left by move-assignment, then the vacated last slot is
destroyed and `size_` decremented.  Returns the new vector and the offset
`mutable_pos - begin()` of the returned iterator. -/
def Erase (v : Vec α) (posOff : Nat) : Vec α × Nat :=
  (⟨v.elems.take posOff ++ v.elems.drop (posOff + 1), v.cap⟩, posOff)

/-- Emplace (lines 230-284) on the non-throwing path, under its precondition
`begin() <= pos <= end()` (`posOff = pos - cbegin()`).  `pos == end()`
delegates to EmplaceBack.  With spare capacity, the last element is
move-constructed into `end()`, `[pos, end()-1)` is shifted right by
`std::move_backward`, and the new value is move-assigned into `*pos`: the net
live sequence is `take posOff ++ [x] ++ drop posOff`.  Otherwise a buffer of
`growthCapacity size_` is allocated, the new element is constructed at offset
`posOff`, the prefix and suffix are transferred around it, the old elements
destroyed and the buffers swapped.  Returns the new vector and the offset
`new_item_offset` of the returned iterator. -/
def Emplace (v : Vec α) (posOff : Nat) (x : α) : Vec α × Nat :=
  if posOff = v.Size then
    (v.EmplaceBack x, posOff)
  else if v.Size + 1 ≤ v.cap then
    (⟨v.elems.take posOff ++ [x] ++ v.elems.drop posOff, v.cap⟩, posOff)
  else
    (⟨v.elems.take posOff ++ [x] ++ v.elems.drop posOff, growthCapacity v.Size⟩,
      posOff)

/-- Insert (lines 286-292): forwards to Emplace. -/
def Insert (v : Vec α) (posOff : Nat) (x : α) : Vec α × Nat := v.Emplace posOff x

/-- The container invariant (`spec.md` section 3): `0 <= size <= capacity`.
The lower bound is automatic for `Nat`. -/
def Wf (v : Vec α) : Prop := v.Size ≤ v.cap

instance (v : Vec α) : Decidable v.Wf := by unfold Wf; infer_instance

end Vec

/-! ## Slot-level model -/

/-- Slot-level model of `RawMemory<T>` (`vector.h` lines 8-85): one entry per
allocated slot; `some x` is a constructed object holding value `x`, `none` is
raw (uninitialized or destroyed) memory.  `Capacity()` is the slot count. -/
structure RawMemory (α : Type) where
  buffer : List (Option α)
  deriving Repr, DecidableEq

/-- Capacity() of a raw buffer (line 68). -/
def RawMemory.Capacity (m : RawMemory α) : Nat := m.buffer.length

/-- Slot-level model of `Vector<T>`: `data_` plus the explicit `size_` field.
Slots `[0, size_)` are expected to be constructed, the rest raw. -/
structure Vector (α : Type) where
  data : RawMemory α
  size : Nat
  deriving Repr, DecidableEq

/-- Read slot `i` (`none` when out of range or raw). -/
def slotAt (b : List (Option α)) (i : Nat) : Option α := b.getD i none

/-- The values of the live elements `[0, size_)`, in order. -/
def Vector.liveList (v : Vector α) : List α := (v.data.buffer.take v.size).filterMap id

/-- Slot-level container invariant: `size_ <= Capacity()` and every slot below
`size_` holds a constructed object. -/
def Vector.WfV (v : Vector α) : Prop :=
  v.size ≤ v.data.Capacity ∧ ∀ i < v.size, (slotAt v.data.buffer i).isSome

instance (v : Vector α) : Decidable v.WfV := by
  unfold Vector.WfV
  infer_instance

/-- Placement-construct values `xs` into consecutive slots starting at `off`. -/
def setSlots (b : List (Option α)) (off : Nat) (xs : List α) : List (Option α) :=
  match xs with
  | [] => b
  | x :: rest => setSlots (b.set off (some x)) (off + 1) rest

/-- Destroy (`std::destroy_n`) the `n` consecutive slots starting at `off`. -/
def clearSlots (b : List (Option α)) (off n : Nat) : List (Option α) :=
  match n with
  | 0 => b
  | k + 1 => clearSlots (b.set off none) (off + 1) k

/-- One size_t decrement, `--size_` (line 215): wraps modulo `2^64` at zero. -/
def sizeTDec (n : Nat) : Nat := (n + (2 ^ 64 - 1)) % 2 ^ 64

/-- Outcome of a debug-build `assert` in a member function: `violation` models
the assertion firing (execution aborts). -/
inductive AssertFail where
  | violation
  deriving Repr, DecidableEq

/-- Debug-build PopBack (lines 214-217).  The source contains no `assert`:
`--size_` runs unconditionally (a `size_t`, so it wraps to `2^64 - 1` when
`size_ == 0`), then `std::destroy_at(end())` destroys the slot at the new
`size_` (out of range when the decrement wrapped; `List.set` out of range is
the identity, standing in for that undefined behavior). -/
def Vector.PopBack (v : Vector α) : Except AssertFail (Vector α) :=
  .ok ⟨⟨(v.data.buffer.set (sizeTDec v.size) none)⟩, sizeTDec v.size⟩

/-- The shift `std::move(mutable_pos + 1, end(), mutable_pos)` inside Erase
(line 222): slot `i` receives the value of slot `i + 1` for
`posOff ≤ i` and `i + 1 < size`; other slots keep their value.  Move-assignment
of the model's value types preserves the assigned value. -/
def moveLeft (b : List (Option α)) (lo hi : Nat) : List (Option α) :=
  (List.range b.length).map fun i =>
    if lo ≤ i ∧ i + 1 < hi then slotAt b (i + 1) else slotAt b i

/-- Debug-build Erase (lines 219-228), `posOff = pos - cbegin()`.  The
`assert(begin() <= pos && pos < end())` is the range check `posOff < size_`;
then the tail is shifted one slot left, `size_` decremented, the vacated last
slot destroyed, and `begin() + posOff` returned (as an offset). -/
def Vector.Erase (v : Vector α) (posOff : Nat) :
    Except AssertFail (Vector α × Nat) :=
  if posOff < v.size then
    .ok (⟨⟨(moveLeft v.data.buffer posOff v.size).set (v.size - 1) none⟩,
          v.size - 1⟩, posOff)
  else
    .error .violation

/-! ## Instrumented throwing paths

The element type is a probe whose copy constructor throws on a chosen call:
`failIdx = some k` makes the `k`-th copy performed by the call throw
(counting from 0); `none` means no copy throws.  These model the growth paths
for an element type whose move constructor may throw and which is
copy-constructible, so the `if constexpr` on lines 161/189/254/267 selects
`std::uninitialized_copy_n` / `std::uninitialized_copy`. -/

/-- `std::uninitialized_copy_n(src, src.length, dst + off)` with a failing
copy constructor.  The algorithm constructs copies in order; if one throws it
destroys the elements it itself had constructed and rethrows, so the error
value (the destination slots as the exception leaves the algorithm) is the
input with slots `[off, off + k)` written and then cleared again. -/
def uninitializedCopyN (src : List α) (b : List (Option α)) (off : Nat)
    (failIdx : Option Nat) : Except (List (Option α)) (List (Option α)) :=
  match failIdx with
  | none => .ok (setSlots b off src)
  | some k =>
    if k < src.length then
      .error (clearSlots (setSlots b off (src.take k)) off k)
    else
      .ok (setSlots b off src)

/-- EmplaceBack (lines 184-204) at full capacity (`size_ == Capacity()`), for
a copy-relocating element type, instrumented with a failing relocation copy.
The new element is constructed at `new_data + size_` first; then
`std::uninitialized_copy_n` relocates the old elements with NO enclosing
try/catch, so a throw during relocation propagates straight out of
EmplaceBack: `data_` and `size_` are untouched, but nothing destroys the
already-constructed new element in `new_data` — the error value is the
vector together with `new_data`'s slots at the moment the exception leaves
the function (the `RawMemory` destructor then frees the bytes without running
any element destructor). -/
def Vector.EmplaceBackCopyReloc (v : Vector α) (x : α) (relFail : Option Nat) :
    Except (Vector α × List (Option α)) (Vector α) :=
  if v.size = v.data.Capacity then
    let nd := List.replicate (growthCapacity v.size) (none : Option α)
    let nd1 := nd.set v.size (some x)
    match uninitializedCopyN v.liveList nd1 0 relFail with
    | .error ndF => .error (v, ndF)
    | .ok nd2 => .ok ⟨⟨nd2⟩, v.size + 1⟩
  else
    .ok ⟨⟨v.data.buffer.set v.size (some x)⟩, v.size + 1⟩

/-- The reallocation path of Emplace (lines 247-279) for an interior position
(`posOff < size_`, `size_ + 1 > Capacity()`), copy-relocating element type,
instrumented with a failing relocation copy (`relFail` counts all relocation
copies this call performs: first the `posOff` prefix copies, then the
`size_ - posOff` suffix copies).  The new element is constructed at
`new_data + posOff`; the prefix transfer is guarded by a catch that destroys
the new element before rethrowing; the suffix transfer is guarded by a catch
that runs `std::destroy_n(new_data.GetAddress(), new_item_offset)` — the
prefix only — before rethrowing.  The error value is (vector, `new_data`
slots) as the exception leaves the function. -/
def Vector.EmplaceCopyReloc (v : Vector α) (posOff : Nat) (x : α)
    (relFail : Option Nat) : Except (Vector α × List (Option α)) (Vector α × Nat) :=
  let nd := List.replicate (growthCapacity v.size) (none : Option α)
  let nd1 := nd.set posOff (some x)
  match uninitializedCopyN (v.liveList.take posOff) nd1 0 relFail with
  | .error ndF => .error (v, ndF.set posOff none)
  | .ok nd2 =>
    let suffixFail := relFail.bind fun k => if k < posOff then none else some (k - posOff)
    match uninitializedCopyN (v.liveList.drop posOff) nd2 (posOff + 1) suffixFail with
    | .error ndF => .error (v, clearSlots ndF 0 posOff)
    | .ok nd3 => .ok (⟨⟨nd3⟩, v.size + 1⟩, posOff)

/-- The in-capacity path of Emplace (lines 241-245) for an interior position
(`posOff < size_`, `size_ + 1 <= Capacity()`), when the construction of the
temporary `T(std::forward<Args>(args)...)` on line 245 throws.  The source
order is: line 243 move-constructs the last element into `end()`; line 244
`std::move_backward(mutable_pos, end() - 1, end())` shifts slots
`[posOff, size_ - 1)` one to the right; only THEN does line 245 construct the
temporary.  When that construction throws, `size_` has not been updated and
the function exits with the buffer in the shifted state, the extra
move-constructed object still live at slot `size_`. -/
def Vector.EmplaceInCapCtorThrows (v : Vector α) (posOff : Nat) : Vector α :=
  let b1 := v.data.buffer.set v.size (slotAt v.data.buffer (v.size - 1))
  let b2 := (List.range b1.length).map fun i =>
    if posOff < i ∧ i < v.size then slotAt b1 (i - 1) else slotAt b1 i
  ⟨⟨b2⟩, v.size⟩

/-- Copy assignment (lines 115-140) instrumented with a failing element copy:
`failIdx = some k` makes the `k`-th element copy operation performed by the
whole assignment throw (branch `rhs.size_ > Capacity()`: the copies inside
`Vector rhs_copy(rhs)`; branch `size_ > rhs.size_`: the copy-assignments of
the loop on lines 123-125; branch else: the copy-assignments of the loop on
lines 130-132 followed by the copy-constructions of
`std::uninitialized_copy_n` on line 133, which destroys its own partial
constructions before rethrowing).  The error value is the assigned-to
vector's observable state as the exception propagates: in every branch
`size_` has not yet been written. -/
def Vec.assignThrowing (a rhs : Vec α) (failIdx : Option Nat) :
    Except (Vec α) (Vec α) :=
  if rhs.Size > a.cap then
    match failIdx with
    | some k => if k < rhs.Size then .error a else .ok ⟨rhs.elems, rhs.Size⟩
    | none => .ok ⟨rhs.elems, rhs.Size⟩
  else if a.Size > rhs.Size then
    match failIdx with
    | some k =>
      if k < rhs.Size then
        .error ⟨rhs.elems.take k ++ a.elems.drop k, a.cap⟩
      else .ok ⟨rhs.elems, a.cap⟩
    | none => .ok ⟨rhs.elems, a.cap⟩
  else
    match failIdx with
    | some k =>
      if k < a.Size then
        .error ⟨rhs.elems.take k ++ a.elems.drop k, a.cap⟩
      else if k < rhs.Size then
        .error ⟨rhs.elems.take a.Size ++ a.elems.drop a.Size, a.cap⟩
      else .ok ⟨rhs.elems, a.cap⟩
    | none => .ok ⟨rhs.elems, a.cap⟩

/-! ## Heap model for aliasing (copy assignment)

To state deep independence of two vectors, buffers are given identities: a
store maps a buffer address to the list of live element values it holds, and
a vector is an address plus a capacity. -/

/-- The allocated buffers of the program, indexed by address. -/
abbrev Store (α : Type) := List (List α)

/-- A vector as it sits in memory: the address of its `RawMemory` block and
that block's capacity.  Its live elements are `readH s v`. -/
structure VecH where
  addr : Nat
  cap : Nat
  deriving Repr, DecidableEq

/-- The live elements of `v`'s buffer in store `s`. -/
def readH (s : Store α) (v : VecH) : List α := s.getD v.addr []

/-- Copy assignment (lines 115-140) in the heap model, `this != &rhs` given by
distinct addresses.  Branch `rhs.size_ > Capacity()`: `Vector rhs_copy(rhs)`
allocates a FRESH buffer (address `s.length`) holding copies of `rhs`'s
elements and `Swap` moves it into `a` (the old buffer dies with `rhs_copy`;
its store entry is simply no longer referenced).  Otherwise `a`'s existing
buffer is reused and overwritten element-wise with `rhs`'s values. -/
def assignH (s : Store α) (a rhs : VecH) : Store α × VecH :=
  if (readH s rhs).length > a.cap then
    (s ++ [readH s rhs], ⟨s.length, (readH s rhs).length⟩)
  else
    (s.set a.addr (readH s rhs), ⟨a.addr, a.cap⟩)

/-- Mutation of a vector's elements in the heap model: overwrite its buffer
with new live contents (covers PushBack/PopBack/assignment through that
vector, which all write only through its own buffer address). -/
def writeH (s : Store α) (v : VecH) (l : List α) : Store α := s.set v.addr l

/-! ## Probe model for move-vs-copy selection -/

/-- The two compile-time facts the relocation rule consults about the element
type `T`: `std::is_nothrow_move_constructible_v<T>` and
`std::is_copy_constructible_v<T>`. -/
structure Traits where
  nothrowMoveCtor : Bool
  copyCtorAvailable : Bool
  deriving Repr, DecidableEq

/-- The `if constexpr` condition of lines 161, 189, 254 and 267:
`std::is_nothrow_move_constructible_v<T> || !std::is_copy_constructible_v<T>`.
`true` selects `std::uninitialized_move_n` / `std::uninitialized_move`,
`false` selects `std::uninitialized_copy_n` / `std::uninitialized_copy`. -/
def usesMoveRelocation (tr : Traits) : Bool :=
  tr.nothrowMoveCtor || !tr.copyCtorAvailable

/-- A probe element: a payload plus counters of how often it has been
move-constructed and copy-constructed into new storage. -/
structure Probe where
  value : Nat
  moves : Nat
  copies : Nat
  deriving Repr, DecidableEq

/-- One relocation of a probe element into new storage: bumps the move
counter when the `if constexpr` selected the move branch, the copy counter
otherwise. -/
def relocateProbe (tr : Traits) (p : Probe) : Probe :=
  if usesMoveRelocation tr then
    { p with moves := p.moves + 1 }
  else
    { p with copies := p.copies + 1 }

/-- Reserve (lines 155-169) on probe elements: at `new_capacity > Capacity()`
every live element is relocated into the new buffer by the selected
construction. -/
def reserveProbe (tr : Traits) (v : Vec Probe) (newCapacity : Nat) : Vec Probe :=
  if newCapacity ≤ v.cap then v
  else ⟨v.elems.map (relocateProbe tr), newCapacity⟩

/-- The growth path of EmplaceBack (lines 185-197) on probe elements: the new
element is constructed at offset `size_`, every old element is relocated by
the selected construction. -/
def emplaceBackGrowProbe (tr : Traits) (v : Vec Probe) (x : Probe) : Vec Probe :=
  ⟨v.elems.map (relocateProbe tr) ++ [x], growthCapacity v.Size⟩

/-- The reallocation path of Emplace (lines 247-279) on probe elements,
interior position `posOff`: prefix and suffix are relocated around the new
element by the selected construction. -/
def emplaceGrowProbe (tr : Traits) (v : Vec Probe) (posOff : Nat) (x : Probe) :
    Vec Probe :=
  ⟨(v.elems.take posOff).map (relocateProbe tr) ++ [x]
      ++ (v.elems.drop posOff).map (relocateProbe tr),
    growthCapacity v.Size⟩

/-! ## Helper lemmas -/

lemma growthCapacity_succ_le (n : Nat) : n + 1 ≤ growthCapacity n := by
  unfold growthCapacity
  split <;> omega

lemma slotAt_map_range (n : Nat) (f : Nat → Option α) (i : Nat) (h : i < n) :
    slotAt ((List.range n).map f) i = f i := by
  simp [slotAt, List.getD_eq_getElem?_getD, List.getElem?_map, List.getElem?_range h]

lemma slotAt_set_ne (b : List (Option α)) (i j : Nat) (x : Option α) (h : j ≠ i) :
    slotAt (b.set j x) i = slotAt b i := by
  simp [slotAt, List.getD_eq_getElem?_getD, List.getElem?_set_ne h]

lemma slotAt_set_self (b : List (Option α)) (i : Nat) (x : Option α)
    (h : i < b.length) : slotAt (b.set i x) i = x := by
  simp [slotAt, List.getD_eq_getElem?_getD, List.getElem?_set_self h]

/-! ## Claim theorems -/

/-- C6: `Reserve(n)` with `n <= capacity` changes nothing; with `n > capacity`
it makes the capacity exactly `n` and leaves the size and every element value
unchanged. -/
theorem C6_reserve_exact_capacity {α : Type} (v : Vec α) (n : Nat) :
    (n ≤ v.cap → v.Reserve n = v) ∧
    (v.cap < n →
      (v.Reserve n).cap = n ∧ (v.Reserve n).elems = v.elems ∧
        (v.Reserve n).Size = v.Size) := by
  constructor
  · intro h
    simp [Vec.Reserve, h]
  · intro h
    have h2 : ¬ n ≤ v.cap := by omega
    simp [Vec.Reserve, h2, Vec.Size]

/-- Witness for C6 at a concrete vector, in both regimes. -/
theorem C6_reserve_exact_capacity_witness :
    ((⟨[1, 2], 5⟩ : Vec Nat).Reserve 3 = ⟨[1, 2], 5⟩) ∧
    ((⟨[1, 2], 2⟩ : Vec Nat).Reserve 7).cap = 7 ∧
    ((⟨[1, 2], 2⟩ : Vec Nat).Reserve 7).elems = [1, 2] := by
  refine ⟨(C6_reserve_exact_capacity ⟨[1, 2], 5⟩ 3).1 (by decide), ?_, ?_⟩
  · exact ((C6_reserve_exact_capacity ⟨[1, 2], 2⟩ 7).2 (by decide)).1
  · exact ((C6_reserve_exact_capacity ⟨[1, 2], 2⟩ 7).2 (by decide)).2.1

/-- C7: every growth triggered by an insertion at full capacity allocates
exactly `max 1 (2 * old size)`: this is `growthCapacity` and it is what the
growth paths of EmplaceBack/PushBack and Emplace/Insert install as the new
capacity. -/
theorem C7_doubling_growth {α : Type} (v : Vec α) (x : α) (posOff : Nat) :
    (∀ n, growthCapacity n = max 1 (2 * n)) ∧
    (v.Size = v.cap → (v.EmplaceBack x).cap = max 1 (2 * v.Size)) ∧
    (v.Size = v.cap → (v.PushBack x).cap = max 1 (2 * v.Size)) ∧
    (posOff ≤ v.Size → v.Size = v.cap →
      ((v.Emplace posOff x).1.cap = max 1 (2 * v.Size) ∧
       (v.Insert posOff x).1.cap = max 1 (2 * v.Size))) := by
  have hg : ∀ n, growthCapacity n = max 1 (2 * n) := by
    intro n
    unfold growthCapacity
    split <;> omega
  have hb : v.Size = v.cap → (v.EmplaceBack x).cap = max 1 (2 * v.Size) := by
    intro h
    simp [Vec.EmplaceBack, h, hg]
  refine ⟨hg, hb, hb, ?_⟩
  intro hle hfull
  have he : (v.Emplace posOff x).1.cap = max 1 (2 * v.Size) := by
    unfold Vec.Emplace
    rcases Nat.eq_or_lt_of_le hle with heq | hlt
    · simp [heq, hb hfull]
    · have h1 : posOff ≠ v.Size := by omega
      have h2 : ¬ (v.Size + 1 ≤ v.cap) := by omega
      simp [h1, h2, hg]
  exact ⟨he, he⟩

/-- Witness for C7: a growth-triggering push and a growth-triggering interior
insert on a full vector of size 2 both allocate capacity 4. -/
theorem C7_doubling_growth_witness :
    ((⟨[8, 9], 2⟩ : Vec Nat).EmplaceBack 1).cap = max 1 (2 * 2) ∧
    ((⟨[8, 9], 2⟩ : Vec Nat).Emplace 1 7).1.cap = max 1 (2 * 2) := by
  refine ⟨(C7_doubling_growth ⟨[8, 9], 2⟩ 1 1).2.1 (by decide), ?_⟩
  exact (((C7_doubling_growth (⟨[8, 9], 2⟩ : Vec Nat) 7 1).2.2.2) (by decide)
    (by decide)).1

/-- C3: relocation into new storage move-constructs each element exactly when
the element type's move construction is non-throwing or the type is not
copy-constructible, and copy-constructs it otherwise; Reserve and the growth
paths of EmplaceBack and Emplace apply that relocation to every transferred
element. -/
theorem C3_move_or_copy_selection (tr : Traits) (p : Probe) (v : Vec Probe)
    (n : Nat) (h : v.cap < n) :
    (((relocateProbe tr p).moves = p.moves + 1 ∧
        (relocateProbe tr p).copies = p.copies)
      ↔ (tr.nothrowMoveCtor = true ∨ tr.copyCtorAvailable = false)) ∧
    (((relocateProbe tr p).copies = p.copies + 1 ∧
        (relocateProbe tr p).moves = p.moves)
      ↔ ¬(tr.nothrowMoveCtor = true ∨ tr.copyCtorAvailable = false)) ∧
    (reserveProbe tr v n).elems = v.elems.map (relocateProbe tr) ∧
    (∀ x, (emplaceBackGrowProbe tr v x).elems
        = v.elems.map (relocateProbe tr) ++ [x]) ∧
    (∀ x posOff, (emplaceGrowProbe tr v posOff x).elems
        = (v.elems.take posOff).map (relocateProbe tr) ++ [x]
          ++ (v.elems.drop posOff).map (relocateProbe tr)) := by
  have h2 : ¬ n ≤ v.cap := by omega
  refine ⟨?_, ?_, by simp [reserveProbe, h2], fun x => rfl, fun x posOff => rfl⟩
  · cases hm : tr.nothrowMoveCtor <;> cases hc : tr.copyCtorAvailable <;>
      simp [relocateProbe, usesMoveRelocation, hm, hc]
  · cases hm : tr.nothrowMoveCtor <;> cases hc : tr.copyCtorAvailable <;>
      simp [relocateProbe, usesMoveRelocation, hm, hc]

/-- Witness for C3: a nothrow-move element type is moved by a
growth-triggering Reserve, a throwing-move copyable element type is copied. -/
theorem C3_move_or_copy_selection_witness :
    (reserveProbe ⟨true, true⟩ ⟨[⟨3, 0, 0⟩], 1⟩ 2).elems
        = [⟨3, 0, 0⟩].map (relocateProbe ⟨true, true⟩) ∧
    ((relocateProbe ⟨true, true⟩ ⟨3, 0, 0⟩).moves = 1 ↔ True) ∧
    ((relocateProbe ⟨false, true⟩ ⟨3, 0, 0⟩).copies = 1 ↔ True) := by
  have h1 := C3_move_or_copy_selection ⟨true, true⟩ ⟨3, 0, 0⟩ ⟨[⟨3, 0, 0⟩], 1⟩ 2
    (by decide)
  have h2 := C3_move_or_copy_selection ⟨false, true⟩ ⟨3, 0, 0⟩ ⟨[⟨3, 0, 0⟩], 1⟩ 2
    (by decide)
  refine ⟨h1.2.2.1, ?_, ?_⟩
  · simp only [iff_true]
    exact (h1.1.mpr (Or.inl rfl)).1
  · simp only [iff_true]
    exact (h2.2.1.mpr (by simp)).1

lemma Vec.Insert_snd {α : Type} (v : Vec α) (posOff : Nat) (x : α) :
    (v.Insert posOff x).2 = posOff := by
  unfold Vec.Insert Vec.Emplace
  split
  · rfl
  · split <;> rfl

lemma Vec.Insert_fst_elems {α : Type} (v : Vec α) (posOff : Nat) (x : α)
    (h : posOff ≤ v.Size) :
    (v.Insert posOff x).1.elems
      = v.elems.take posOff ++ x :: v.elems.drop posOff := by
  rcases Nat.eq_or_lt_of_le h with heq | hlt
  · subst heq
    have ht : v.elems.take v.Size = v.elems := by simp [Vec.Size]
    have hd : v.elems.drop v.Size = [] := by simp [Vec.Size]
    rw [ht, hd]
    have e1 : v.Insert v.Size x = (v.EmplaceBack x, v.Size) := by
      unfold Vec.Insert Vec.Emplace
      exact if_pos rfl
    rw [e1]
    unfold Vec.EmplaceBack
    split <;> simp
  · have h1 : posOff ≠ v.Size := Nat.ne_of_lt hlt
    unfold Vec.Insert Vec.Emplace
    simp only [if_neg h1]
    split <;> simp

/-- C8: for every valid position (including begin and end), Insert of a value
followed by Erase at the returned position restores the original element
sequence and the original size. -/
theorem C8_insert_erase_roundtrip {α : Type} (v : Vec α) (posOff : Nat) (x : α)
    (h : posOff ≤ v.Size) :
    ((v.Insert posOff x).1.Erase (v.Insert posOff x).2).1.elems = v.elems ∧
    ((v.Insert posOff x).1.Erase (v.Insert posOff x).2).1.Size = v.Size := by
  have hsnd := Vec.Insert_snd v posOff x
  have helems := Vec.Insert_fst_elems v posOff x h
  have hS : posOff ≤ v.elems.length := h
  have hlen : (v.elems.take posOff).length = posOff := by
    rw [List.length_take]
    omega
  have key : ((v.Insert posOff x).1.Erase (v.Insert posOff x).2).1.elems
      = v.elems := by
    rw [hsnd]
    unfold Vec.Erase
    simp only [helems]
    have ht : (v.elems.take posOff ++ x :: v.elems.drop posOff).take posOff
        = v.elems.take posOff := List.take_left' hlen
    have hd : (v.elems.take posOff ++ x :: v.elems.drop posOff).drop (posOff + 1)
        = v.elems.drop posOff := by
      have : v.elems.take posOff ++ x :: v.elems.drop posOff
          = (v.elems.take posOff ++ [x]) ++ v.elems.drop posOff := by simp
      rw [this]
      exact List.drop_left' (by simp [hlen])
    rw [ht, hd, List.take_append_drop]
  exact ⟨key, by simp [Vec.Size, key]⟩

/-- Witness for C8: inserting 9 at position 1 of [4, 5, 6] and erasing at the
returned position restores [4, 5, 6]. -/
theorem C8_insert_erase_roundtrip_witness :
    (((⟨[4, 5, 6], 3⟩ : Vec Nat).Insert 1 9).1.Erase
        ((⟨[4, 5, 6], 3⟩ : Vec Nat).Insert 1 9).2).1.elems = [4, 5, 6] :=
  (C8_insert_erase_roundtrip ⟨[4, 5, 6], 3⟩ 1 9 (by decide)).1

lemma Vec.wf_emplaceBack {α : Type} (v : Vec α) (x : α) (hv : v.Wf) :
    (v.EmplaceBack x).Wf := by
  unfold Vec.EmplaceBack
  split
  · have := growthCapacity_succ_le v.Size
    simp_all [Vec.Wf, Vec.Size]
  · simp_all [Vec.Wf, Vec.Size] <;> omega

/-- C9: the invariant `0 <= size <= capacity` holds for the default-constructed
vector and is preserved, entry to exit, by every public operation invoked
with its precondition satisfied (`d` is the value produced by
value-construction, `x` an arbitrary inserted value). -/
theorem C9_size_le_capacity_invariant {α : Type} (d x : α) :
    (Vec.empty (α := α)).Wf
    ∧ (∀ n, (Vec.ofSize d n).Wf)
    ∧ (∀ v : Vec α, v.Wf → (Vec.copyCtorOf v).Wf)
    ∧ (∀ v : Vec α, v.Wf → (Vec.moveCtorOf v).1.Wf ∧ (Vec.moveCtorOf v).2.Wf)
    ∧ (∀ a b : Vec α, a.Wf → b.Wf → (a.assign b).Wf)
    ∧ (∀ a b : Vec α, a.Wf → b.Wf →
        (a.moveAssign b).1.Wf ∧ (a.moveAssign b).2.Wf)
    ∧ (∀ a b : Vec α, a.Wf → b.Wf →
        (Vec.SwapOp a b).1.Wf ∧ (Vec.SwapOp a b).2.Wf)
    ∧ (∀ (v : Vec α) n, v.Wf → (v.Reserve n).Wf)
    ∧ (∀ (v : Vec α) n, v.Wf → (v.Resize d n).Wf)
    ∧ (∀ v : Vec α, v.Wf → (v.EmplaceBack x).Wf ∧ (v.PushBack x).Wf)
    ∧ (∀ v : Vec α, v.Wf → 0 < v.Size → v.PopBack.Wf)
    ∧ (∀ (v : Vec α) p, v.Wf → p ≤ v.Size →
        (v.Emplace p x).1.Wf ∧ (v.Insert p x).1.Wf)
    ∧ (∀ (v : Vec α) p, v.Wf → p < v.Size → (v.Erase p).1.Wf) := by
  have hemp : ∀ (v : Vec α) p, v.Wf → p ≤ v.Size → (v.Emplace p x).1.Wf := by
    intro v p hv hp
    unfold Vec.Emplace
    split
    · exact Vec.wf_emplaceBack v x hv
    · split
      · simp_all [Vec.Wf, Vec.Size]
        omega
      · have := growthCapacity_succ_le v.Size
        simp_all [Vec.Wf, Vec.Size]
        omega
  refine ⟨by simp [Vec.Wf, Vec.empty, Vec.Size], ?_, ?_, ?_, ?_, ?_, ?_, ?_, ?_,
    ?_, ?_, ?_, ?_⟩
  · intro n
    simp [Vec.Wf, Vec.ofSize, Vec.Size]
  · intro v _
    simp [Vec.Wf, Vec.copyCtorOf, Vec.Size]
  · intro v hv
    exact ⟨hv, by simp [Vec.Wf, Vec.moveCtorOf, Vec.empty, Vec.Size]⟩
  · intro a b _ hb
    unfold Vec.assign
    split
    · exact Nat.le_refl _
    · simp_all [Vec.Wf, Vec.Size]
  · intro a b _ hb
    exact ⟨hb, by simp [Vec.Wf, Vec.moveAssign, Vec.empty, Vec.Size]⟩
  · intro a b ha hb
    exact ⟨hb, ha⟩
  · intro v n hv
    unfold Vec.Reserve
    split
    · exact hv
    · simp_all [Vec.Wf, Vec.Size] <;> omega
  · intro v n hv
    unfold Vec.Resize
    split
    · simp_all [Vec.Wf, Vec.Size, List.length_take]
    · split
      · unfold Vec.Reserve
        split <;> simp_all [Vec.Wf, Vec.Size]
      · exact hv
  · intro v hv
    exact ⟨Vec.wf_emplaceBack v x hv, Vec.wf_emplaceBack v x hv⟩
  · intro v hv _
    simp_all [Vec.Wf, Vec.PopBack, Vec.Size, List.length_dropLast]
    omega
  · intro v p hv hp
    exact ⟨hemp v p hv hp, hemp v p hv hp⟩
  · intro v p hv hp
    have hple : p ≤ v.elems.length := Nat.le_of_lt hp
    simp_all [Vec.Wf, Vec.Erase, Vec.Size, List.length_take, List.length_drop]
    omega

/-- Witness for C9: the invariant-preservation clauses applied to concrete
vectors (growth-triggering emplace, pop, erase, resize, assignment). -/
theorem C9_size_le_capacity_invariant_witness :
    ((⟨[1, 2], 2⟩ : Vec Nat).Emplace 1 9).1.Wf
    ∧ (⟨[1, 2], 4⟩ : Vec Nat).PopBack.Wf
    ∧ ((⟨[1, 2, 3], 4⟩ : Vec Nat).Erase 0).1.Wf
    ∧ ((⟨[1], 1⟩ : Vec Nat).Resize 0 5).Wf
    ∧ ((⟨[1], 1⟩ : Vec Nat).assign ⟨[5, 6, 7], 3⟩).Wf := by
  obtain ⟨-, -, -, -, hassign, -, -, -, hresize, -, hpop, hemp, herase⟩ :=
    C9_size_le_capacity_invariant (α := Nat) 0 9
  refine ⟨(hemp ⟨[1, 2], 2⟩ 1 (by decide) (by decide)).1, ?_, ?_, ?_, ?_⟩
  · exact hpop ⟨[1, 2], 4⟩ (by decide) (by decide)
  · exact herase ⟨[1, 2, 3], 4⟩ 0 (by decide) (by decide)
  · exact hresize ⟨[1], 1⟩ 5 (by decide)
  · exact hassign ⟨[1], 1⟩ ⟨[5, 6, 7], 3⟩ (by decide) (by decide)

lemma slotAt_moveLeft (b : List (Option α)) (lo hi i : Nat) (h : i < b.length) :
    slotAt (moveLeft b lo hi) i
      = if lo ≤ i ∧ i + 1 < hi then slotAt b (i + 1) else slotAt b i := by
  unfold moveLeft
  exact slotAt_map_range b.length _ i h

/-- C10: for every valid position `posOff`, Erase succeeds and returns the
offset `posOff` from the new `begin()`; the slot there holds the value that
followed the erased element, and when the last element was erased the offset
equals the new size, i.e. `end()`. -/
theorem C10_erase_return_value {α : Type} (v : Vector α) (posOff : Nat)
    (hwf : v.WfV) (h : posOff < v.size) :
    ∃ w : Vector α, v.Erase posOff = .ok (w, posOff)
      ∧ w.size = v.size - 1
      ∧ (posOff < w.size →
          slotAt w.data.buffer posOff = slotAt v.data.buffer (posOff + 1))
      ∧ (posOff = v.size - 1 → posOff = w.size) := by
  refine ⟨⟨⟨(moveLeft v.data.buffer posOff v.size).set (v.size - 1) none⟩,
    v.size - 1⟩, ?_, rfl, ?_, fun hp => hp⟩
  · unfold Vector.Erase
    exact if_pos h
  · intro hlt
    have hlt2 : posOff < v.size - 1 := hlt
    have hne : v.size - 1 ≠ posOff := by omega
    have hblen : posOff < v.data.buffer.length := by
      have := hwf.1
      unfold RawMemory.Capacity at this
      omega
    rw [slotAt_set_ne _ _ _ _ hne, slotAt_moveLeft _ _ _ _ hblen,
      if_pos ⟨Nat.le_refl posOff, by omega⟩]

/-- Witness for C10: erasing position 0 of [7, 8] returns offset 0, where the
value 8 now lives. -/
theorem C10_erase_return_value_witness :
    ∃ w : Vector Nat,
      (⟨⟨[some 7, some 8]⟩, 2⟩ : Vector Nat).Erase 0 = .ok (w, 0)
        ∧ w.size = 1 ∧ slotAt w.data.buffer 0 = some 8 := by
  obtain ⟨w, h1, h2, h3, -⟩ := C10_erase_return_value
    (⟨⟨[some 7, some 8]⟩, 2⟩ : Vector Nat) 0 (by decide) (by decide)
  have hp : 0 < w.size := by rw [h2]; decide
  exact ⟨w, h1, h2, by rw [h3 hp]; rfl⟩

lemma Vec.assignThrowing_error_size {α : Type} (a0 rhs : Vec α)
    (fi : Option Nat) (e : Vec α) (h : a0.assignThrowing rhs fi = .error e) :
    e.Size = a0.Size := by
  rcases fi with _ | k
  · simp only [Vec.assignThrowing] at h
    split at h <;> [skip; split at h] <;> simp_all
  · simp only [Vec.assignThrowing] at h
    split at h
    · split at h
      · cases h
        rfl
      · simp_all
    · split at h
      · split at h
        · cases h
          have hk : k ≤ rhs.elems.length := by
            simp only [Vec.Size] at *
            omega
          have hk2 : k ≤ a0.elems.length := by
            simp only [Vec.Size] at *
            omega
          simp [Vec.Size, List.length_take, List.length_drop]
          omega
        · simp_all
      · split at h
        · cases h
          simp only [Vec.Size, List.length_append, List.length_take,
            List.length_drop, Vec.Size] at *
          omega
        · split at h
          · cases h
            simp only [Vec.Size, List.length_append, List.length_take,
              List.length_drop, Vec.Size] at *
            omega
          · simp_all

/-- C5: copy assignment makes the target hold exactly the source's element
values, in a buffer distinct from the source's, so that subsequently mutating
the source leaves the target unchanged; and when an element copy throws, the
exception propagates with the target's size still at its pre-call value. -/
theorem C5_copy_assignment_deep_copy {α : Type} (s : Store α) (a b : VecH)
    (hab : a.addr ≠ b.addr) (ha : a.addr < s.length) (hb : b.addr < s.length) :
    readH (assignH s a b).1 (assignH s a b).2 = readH s b
    ∧ (assignH s a b).2.addr ≠ b.addr
    ∧ (∀ l, readH (writeH (assignH s a b).1 b l) (assignH s a b).2
        = readH (assignH s a b).1 (assignH s a b).2)
    ∧ (∀ (a0 rhs : Vec α) (fi : Option Nat) (e : Vec α),
        a0.assignThrowing rhs fi = .error e → e.Size = a0.Size) := by
  refine ⟨?_, ?_, ?_, fun a0 rhs fi e he => Vec.assignThrowing_error_size a0 rhs fi e he⟩
  · unfold assignH
    split
    · simp [readH, List.getD_eq_getElem?_getD,
        List.getElem?_append_right (Nat.le_refl s.length)]
    · simp [readH, List.getD_eq_getElem?_getD, List.getElem?_set_self ha]
  · unfold assignH
    split
    · simp only []
      omega
    · exact hab
  · intro l
    unfold assignH writeH
    split
    · have hne : b.addr ≠ s.length := by omega
      simp [readH, List.getD_eq_getElem?_getD, List.getElem?_set_ne hne]
    · have hne : b.addr ≠ a.addr := fun hx => hab hx.symm
      simp [readH, List.getD_eq_getElem?_getD, List.getElem?_set_ne hne]

/-- Witness for C5: assigning [9, 9, 9] (buffer 1) into [4] (buffer 0, capacity
1) reallocates into fresh buffer 2; overwriting buffer 1 afterwards leaves the
target reading [9, 9, 9]; a throwing copy propagates with the old size 1. -/
theorem C5_copy_assignment_deep_copy_witness :
    readH (assignH [[4], [9, 9, 9]] ⟨0, 1⟩ ⟨1, 3⟩).1
        (assignH [[4], [9, 9, 9]] ⟨0, 1⟩ ⟨1, 3⟩).2 = [9, 9, 9]
    ∧ (∀ l, readH (writeH (assignH [[4], [9, 9, 9]] ⟨0, 1⟩ ⟨1, 3⟩).1 ⟨1, 3⟩ l)
        (assignH [[4], [9, 9, 9]] ⟨0, 1⟩ ⟨1, 3⟩).2
          = readH (assignH [[4], [9, 9, 9]] ⟨0, 1⟩ ⟨1, 3⟩).1
              (assignH [[4], [9, 9, 9]] ⟨0, 1⟩ ⟨1, 3⟩).2)
    ∧ (⟨[7, 5], 2⟩ : Vec Nat).Size = (⟨[4, 5], 2⟩ : Vec Nat).Size := by
  obtain ⟨h1, -, h3, h4⟩ := C5_copy_assignment_deep_copy
    (α := Nat) [[4], [9, 9, 9]] ⟨0, 1⟩ ⟨1, 3⟩ (by decide) (by decide) (by decide)
  exact ⟨h1, h3, h4 ⟨[4, 5], 2⟩ ⟨[7, 8], 2⟩ (some 1) ⟨[7, 5], 2⟩ rfl⟩

/-- C4, counterexample: PopBack on the empty vector does NOT fail an
assertion — the source of PopBack contains no assert, so the embedding
returns normally, with `size_` wrapped to `2^64 - 1` by the unconditional
`--size_`. -/
theorem C4_popback_empty_no_assert :
    Vector.PopBack (⟨⟨[]⟩, 0⟩ : Vector Nat) ≠ .error .violation
    ∧ Vector.PopBack (⟨⟨[]⟩, 0⟩ : Vector Nat) = .ok ⟨⟨[]⟩, 2 ^ 64 - 1⟩ := by
  constructor
  · simp [Vector.PopBack]
  · rfl

/-- C4, amended: PopBack on an empty vector violates the precondition
`size != 0` but performs no assertion check — `--size_` underflows the
`size_t` size to `2^64 - 1` (undefined behavior downstream); on a non-empty
vector PopBack destroys exactly the last live element, decrements the size by
one and leaves the capacity unchanged. -/
theorem C4_popback_behavior {α : Type} (v : Vector α) :
    (v.size = 0 → ∃ w, v.PopBack = .ok w ∧ w.size = 2 ^ 64 - 1
        ∧ w.data.Capacity = v.data.Capacity)
    ∧ (0 < v.size → v.size < 2 ^ 64 → v.size ≤ v.data.Capacity →
        ∃ w, v.PopBack = .ok w ∧ w.size = v.size - 1
          ∧ w.data.Capacity = v.data.Capacity
          ∧ slotAt w.data.buffer (v.size - 1) = none
          ∧ ∀ i, i ≠ v.size - 1 → slotAt w.data.buffer i = slotAt v.data.buffer i) := by
  constructor
  · intro h0
    refine ⟨_, rfl, ?_, ?_⟩
    · simp only [sizeTDec, h0]
      omega
    · simp [RawMemory.Capacity]
  · intro hpos h64 hcap
    have hdec : sizeTDec v.size = v.size - 1 := by
      unfold sizeTDec
      omega
    refine ⟨_, rfl, ?_, ?_, ?_, ?_⟩
    · exact hdec
    · simp [RawMemory.Capacity]
    · rw [hdec]
      exact slotAt_set_self _ _ _ (by
        unfold RawMemory.Capacity at hcap
        omega)
    · intro i hi
      rw [hdec]
      exact slotAt_set_ne _ _ _ _ (fun hx => hi hx.symm)

/-- Witness for C4's amended statement: popping [3, 4] destroys slot 1,
leaves slot 0 and the capacity alone. -/
theorem C4_popback_behavior_witness :
    ∃ w : Vector Nat, (⟨⟨[some 3, some 4]⟩, 2⟩ : Vector Nat).PopBack = .ok w
      ∧ w.size = 1 ∧ w.data.Capacity = 2
      ∧ slotAt w.data.buffer 1 = none
      ∧ slotAt w.data.buffer 0 = some 3 := by
  obtain ⟨w, h1, h2, h3, h4, h5⟩ := (C4_popback_behavior
    (⟨⟨[some 3, some 4]⟩, 2⟩ : Vector Nat)).2 (by decide) (by norm_num) (by decide)
  exact ⟨w, h1, h2, h3, h4, by rw [h5 0 (by decide)]; rfl⟩

/-- C1: a growth-triggered insertion whose element transfer throws leaves the
vector itself unchanged but does NOT destroy the new element that was already
constructed in the detached new buffer.  EmplaceBack has no try/catch at all,
and the catch guarding Emplace's suffix transfer destroys only the
`new_item_offset` prefix slots, never slot `new_item_offset` itself: in both
evaluations below the error state still holds a live (undestroyed) object in
the new buffer as the exception propagates. -/
theorem C1_growth_throw_leaks_new_element :
    Vector.EmplaceBackCopyReloc (⟨⟨[some 7]⟩, 1⟩ : Vector Nat) 5 (some 0)
        = .error (⟨⟨[some 7]⟩, 1⟩, [none, some 5])
    ∧ (slotAt [none, some (5 : Nat)] 1).isSome = true
    ∧ Vector.EmplaceCopyReloc (⟨⟨[some 7, some 8]⟩, 2⟩ : Vector Nat) 1 5 (some 1)
        = .error (⟨⟨[some 7, some 8]⟩, 2⟩, [none, some 5, none, none])
    ∧ (slotAt [none, some (5 : Nat), none, none] 1).isSome = true := by
  exact ⟨rfl, rfl, rfl, rfl⟩

/-- C2: in the in-capacity path of Emplace the temporary is constructed only
AFTER the last element has been move-constructed into `end()` and the range
`[pos, end()-1)` shifted right; if that construction throws, the container has
been modified: element values are in the shifted state and a stray constructed
object sits in the slot at offset `size_` (never destroyed, since `size_` was
not incremented).  Starting from elements [10, 20] (capacity 3), a throwing
emplace at position 0 leaves the buffer as [10, 10, 20] instead of
[10, 20, -]. -/
theorem C2_in_capacity_ctor_throw_disturbs :
    Vector.EmplaceInCapCtorThrows (⟨⟨[some 10, some 20, none]⟩, 2⟩ : Vector Nat) 0
        = ⟨⟨[some 10, some 10, some 20]⟩, 2⟩
    ∧ (⟨⟨[some 10, some 10, some 20]⟩, 2⟩ : Vector Nat)
        ≠ ⟨⟨[some 10, some 20, none]⟩, 2⟩
    ∧ (slotAt [some (10 : Nat), some 10, some 20] 2).isSome = true := by
  refine ⟨?_, by decide, rfl⟩
  decide

end AdvancedVector
